import Mathlib

/-
Verification of the approval-gated turn loop of the gemini-cli-core codelab.

The five scripts of the repository are shallowly embedded below.  Pure data
flow (stream consumption, call-id construction, response-part normalization,
approval-token mapping, exit codes) is translated directly from the
TypeScript sources.  The CoreToolScheduler and executeToolCall live in the
external @google/gemini-cli-core SDK and are not part of the repository
source; where a claim depends on their behaviour they are modelled from the
design spec (sections 4.2 and 9) and marked as such in their doc comments,
or abstracted as oracle parameters.
-/

/-- A streamed function call as delivered by the backend: an optional
identifier, a tool name and an argument mapping (argument values are kept
opaque as strings). -/
structure FunctionCall where
  id : Option String
  name : String
  args : List (String × String)
deriving DecidableEq

/-- One part of a streamed chunk as consumed by the scripts: optional text,
a thought flag (absent is modelled as false) and an optional function call. -/
structure StreamPart where
  text : Option String
  thought : Bool
  functionCall : Option FunctionCall
deriving DecidableEq

/-- Kind tag distinguishing success, error and cancellation payloads inside
a functionResponse part, so that the aggregated payload can tell a
cancellation from an execution error. -/
inductive RespKind
  | success
  | errorKind
  | cancelledKind
deriving DecidableEq

/-- A non-null JavaScript object appearing as a content part: either a
text object or a functionResponse object. -/
inductive PartObj
  | textObj (s : String)
  | funcResponse (callId : String) (kind : RespKind) (payload : String)
deriving DecidableEq

/-- A JavaScript content part value: null or undefined, a bare string, or a
non-null object. -/
inductive JsPart
  | nullPart
  | strPart (s : String)
  | objPart (o : PartObj)
deriving DecidableEq

/-- The PartListUnion shape of toolResponse.responseParts: a single part or
an array of parts. -/
inductive RespParts
  | single (p : JsPart)
  | array (ps : List JsPart)
deriving DecidableEq

/-- A tool call request as built by the scripts: callId, tool name and
argument mapping.  Immutable once issued. -/
structure ToolCallRequestInfo where
  callId : String
  name : String
  args : List (String × String)
deriving DecidableEq

/-- JavaScript truthiness of an optional text field: present and nonempty. -/
def partTextTruthy (p : StreamPart) : Bool :=
  p.text.getD "" != ""

/-- The text of a stream part, empty when absent. -/
def partTextVal (p : StreamPart) : String :=
  p.text.getD ""

/-- The whitespace characters of the JavaScript whitespace class (ASCII
whitespace plus no-break space and the byte order mark). -/
def isJsWhitespace (c : Char) : Bool :=
  c = ' ' || c = '\t' || c = '\n' || c = '\r' || c = '\x0b' || c = '\x0c' ||
  c = ' ' || c = '﻿'

/-- The JavaScript String.prototype.trim: whitespace removed from both
ends. -/
def jsTrim (s : String) : String :=
  String.mk (((s.data.dropWhile isJsWhitespace).reverse.dropWhile isJsWhitespace).reverse)

/-- The JavaScript String.prototype.toLowerCase, restricted to the
character-wise lowering the scripts rely on. -/
def jsToLower (s : String) : String :=
  String.mk (s.data.map Char.toLower)

/-- Accumulator of one round of stream consumption in runChatWithTool
(src/03-tools.ts lines 36-64): thinking text, content text and the
collected function calls, each in arrival order. -/
structure RoundAcc where
  thinkingText : String
  responseText : String
  functionCalls : List FunctionCall
deriving DecidableEq

/-- One part of the stream-consumption loop body of src/03-tools.ts lines
51-62: thought text goes to thinkingText, other truthy text to
responseText, and any functionCall is appended. -/
def consumeStep (acc : RoundAcc) (p : StreamPart) : RoundAcc :=
  let acc1 :=
    if p.thought && partTextTruthy p then
      { acc with thinkingText := acc.thinkingText ++ partTextVal p }
    else if partTextTruthy p then
      { acc with responseText := acc.responseText ++ partTextVal p }
    else acc
  match p.functionCall with
  | some fc => { acc1 with functionCalls := acc1.functionCalls ++ [fc] }
  | none => acc1

/-- Consumption of a whole streamed round (chunks flattened to their parts),
src/03-tools.ts lines 49-64. -/
def consumeStream (round : List StreamPart) : RoundAcc :=
  round.foldl consumeStep { thinkingText := "", responseText := "", functionCalls := [] }

/-- The generated call identifier, built from the tool name, a dash and the
timestamp, as in every script. -/
def generatedCallId (now : Nat) (fc : FunctionCall) : String :=
  fc.name ++ "-" ++ toString now

/-- Call-id construction with nullish coalescing, as in src/03-tools.ts
line 76 and both step-4 sources: a present identifier, even the empty
string, is used unchanged. -/
def callIdNullish (now : Nat) (fc : FunctionCall) : String :=
  fc.id.getD (generatedCallId now fc)

/-- Call-id construction with logical or, as in the step-5 source and the
older step-3 source: a falsy identifier (absent or the empty string) is
replaced by the generated one. -/
def callIdOrElse (now : Nat) (fc : FunctionCall) : String :=
  match fc.id with
  | some s => if s = "" then generatedCallId now fc else s
  | none => generatedCallId now fc

/-- The request record built in src/03-tools.ts lines 76-82 and the step-4
sources from a streamed function call. -/
def mkRequestInfo (now : Nat) (fc : FunctionCall) : ToolCallRequestInfo :=
  { callId := callIdNullish now fc, name := fc.name, args := fc.args }

/-- JavaScript truthiness of a responseParts value: arrays are always
truthy, a single part is truthy unless it is null, undefined or the empty
string. -/
def respTruthy : RespParts → Bool
  | .single (.strPart s) => s != ""
  | .single .nullPart => false
  | .single (.objPart _) => true
  | .array _ => true

/-- The underlying list of a responseParts value, as produced by the
Array.isArray wrap in the scripts. -/
def respPartsList : RespParts → List JsPart
  | .single p => [p]
  | .array ps => ps

/-- The per-part push of src/03-tools.ts lines 98-104: a string part is
converted to a text object, a null or undefined part is dropped, a non-null
object part is kept. -/
def pushToolResponsePart (acc : List JsPart) (p : JsPart) : List JsPart :=
  match p with
  | .strPart s => acc ++ [.objPart (.textObj s)]
  | .nullPart => acc
  | .objPart o => acc ++ [.objPart o]

/-- Whether the unguarded output log access of src/03-tools.ts lines 92-93,
(toolResponse.responseParts as any).functionResponse.response.output,
throws a TypeError on a truthy responseParts value.  Only a single
non-null object part carrying a functionResponse survives (the model
funcResponse constructor stands for the SDK-built object whose response
field is present); on an array, a bare string, or a text object the
functionResponse field is undefined and the .response access throws. -/
def outputAccessThrows : RespParts → Bool
  | .single (.objPart (.funcResponse _ _ _)) => false
  | _ => true

/-- The responseParts handling of src/03-tools.ts lines 91-105: nothing is
collected when responseParts is falsy; on a truthy value the unguarded
functionResponse.response.output access of lines 92-93 runs first and
throws a TypeError (the error case) unless the value is a single
functionResponse object part; when it survives, the value is wrapped into
an array when it is not one, and each part is pushed through
pushToolResponsePart. -/
def collectResponseParts (rp : Option RespParts) : Except Unit (List JsPart) :=
  match rp with
  | none => .ok []
  | some r =>
    if respTruthy r then
      if outputAccessThrows r then .error ()
      else .ok ((respPartsList r).foldl pushToolResponsePart [])
    else .ok []

/-- Outcome of one iteration of a chat/tool loop: the final answer, the
parts fed to the backend as the next round of input, or an exception
thrown out of the loop body. -/
inductive LoopOutcome
  | finished (answer : String)
  | continueWith (nextParts : List JsPart)
  | thrown
deriving DecidableEq

/-- The tool-response aggregation loop of src/03-tools.ts lines 73-106:
each function call in order is turned into a request and executed
(executeToolCall is an oracle, being external SDK code) and its normalized
parts are appended; a TypeError thrown by the output access propagates
immediately, aborting the remaining calls of the round. -/
def chatToolResultsGo (exec : ToolCallRequestInfo → Option RespParts) (now : Nat) :
    List FunctionCall → List JsPart → Except Unit (List JsPart)
  | [], acc => .ok acc
  | fc :: fcs, acc =>
    match collectResponseParts (exec (mkRequestInfo now fc)) with
    | .error e => .error e
    | .ok parts => chatToolResultsGo exec now fcs (acc ++ parts)

/-- The aggregated tool results of one round of runChatWithTool, starting
from the empty accumulator. -/
def chatToolResults (exec : ToolCallRequestInfo → Option RespParts) (now : Nat)
    (fcs : List FunctionCall) : Except Unit (List JsPart) :=
  chatToolResultsGo exec now fcs []

/-- One iteration of the while loop of runChatWithTool, src/03-tools.ts
lines 35-119: with at least one function call the loop continues with the
aggregated tool results, unless the output access of lines 92-93 throws,
in which case the exception escapes the loop; with no function call it
finishes with the trimmed response text. -/
def runChatStep (exec : ToolCallRequestInfo → Option RespParts) (now : Nat)
    (round : List StreamPart) : LoopOutcome :=
  match (consumeStream round).functionCalls with
  | [] => .finished (jsTrim (consumeStream round).responseText)
  | _ :: _ =>
    match chatToolResults exec now (consumeStream round).functionCalls with
    | .error _ => .thrown
    | .ok parts => .continueWith parts

/-- The input to the next round after a round with tool calls,
src/03-tools.ts line 107; the empty default in the error case is never
used by a loop run, which exits on a thrown step instead. -/
def chatNextInput (exec : ToolCallRequestInfo → Option RespParts) (now : Nat)
    (backend : List JsPart → List StreamPart) (input : List JsPart) : List JsPart :=
  match chatToolResults exec now (consumeStream (backend input)).functionCalls with
  | .ok ps => ps
  | .error _ => []

/-- How a run of the step-3 loop ends: with a final answer, with an
uncaught exception that reaches the main catch handler and exits the
process, or with the fuel exhausted before a round without tool calls. -/
inductive ChatRunResult
  | answer (text : String)
  | exnExit
  | outOfFuel
deriving DecidableEq

/-- The full while loop of runChatWithTool, src/03-tools.ts lines 35-119,
with the backend as an oracle from the current input to the streamed round
and explicit fuel; a thrown TypeError escapes the loop to the top-level
catch handler. -/
def runChatWithTool (exec : ToolCallRequestInfo → Option RespParts) (now : Nat)
    (backend : List JsPart → List StreamPart) : Nat → List JsPart → ChatRunResult
  | 0, _ => .outOfFuel
  | fuel + 1, input =>
    match runChatStep exec now (backend input) with
    | .finished a => .answer a
    | .thrown => .exnExit
    | .continueWith next => runChatWithTool exec now backend fuel next

/-- The trace of inputs sent to the backend by runChatWithTool: round k of
the loop consumes the stream produced from chatInputs k. -/
def chatInputs (exec : ToolCallRequestInfo → Option RespParts) (now : Nat)
    (backend : List JsPart → List StreamPart) : Nat → List JsPart → List JsPart
  | 0, input => input
  | k + 1, input => chatInputs exec now backend k (chatNextInput exec now backend input)

/-- An executor whose every response survives the output access, so the
collection loop of a round never throws. -/
def execSafe (exec : ToolCallRequestInfo → Option RespParts) : Prop :=
  ∀ q, ∃ ps, collectResponseParts (exec q) = Except.ok ps

/-- Lifecycle states of a tool call, spec section 4.2. -/
inductive CallStatus
  | validating
  | awaitingApproval
  | executing
  | completed
  | cancelled
  | errored
deriving DecidableEq

/-- The three approval decisions, the ToolConfirmationOutcome values used by
the step-4 and step-5 scripts. -/
inductive ToolConfirmationOutcome
  | proceedOnce
  | proceedAlwaysTool
  | cancel
deriving DecidableEq

/-- A tool call as reported by the scheduler: its immutable request, its
current status, its response payload once terminal, and the list of states
it has traversed in order. -/
structure SchedCall where
  request : ToolCallRequestInfo
  status : CallStatus
  response : Option RespParts
  trace : List CallStatus
deriving DecidableEq

/-- Modelled from the spec: the per-tool contract of the Tool Registry
interface (section 6), consumed by the scheduler.  The registry and the
individual tools live in the external SDK and are not under src, so a tool
is an abstract record of its validate, needsConfirmation and execute
behaviours; execute returning an error models a thrown failure. -/
structure ToolSpec where
  validate : List (String × String) → Option String
  needsConfirmation : List (String × String) → Bool
  run : List (String × String) → Except String (List JsPart)

/-- A tool registry: tool specs keyed by tool name. -/
abbrev SchedToolRegistry := List (String × ToolSpec)

/-- Modelled from the spec: the mutable per-scheduler-instance state of the
approval gate (section 4.2), the auto-approve set of tool names.  The
CoreToolScheduler holding it is external SDK code, not under src. -/
structure SchedulerState where
  autoApprove : List String
deriving DecidableEq

/-- An error payload for a call, distinguishable as an error in the
aggregated parts. -/
def errorResponse (callId msg : String) : RespParts :=
  .array [.objPart (.funcResponse callId .errorKind msg)]

/-- A cancellation payload for a call, distinguishable from an execution
error in the aggregated parts. -/
def cancelResponse (callId : String) : RespParts :=
  .array [.objPart (.funcResponse callId .cancelledKind "Tool execution cancelled by user.")]

/-- Modelled from the spec: the executing stage of a tool call (section
4.2).  The run succeeds with a structured response payload or fails with an
error payload; in both cases the call reaches a terminal status and carries
a payload. -/
def runExecution (tool : ToolSpec) (req : ToolCallRequestInfo) (pre : List CallStatus) : SchedCall :=
  match tool.run req.args with
  | .ok parts =>
      { request := req, status := .completed, response := some (.array parts),
        trace := pre ++ [.executing, .completed] }
  | .error msg =>
      { request := req, status := .errored, response := some (errorResponse req.callId msg),
        trace := pre ++ [.executing, .errored] }

/-- Modelled from the spec: the validating stage of a tool call and its
routing (section 4.2).  An unknown tool or a failed argument validation
ends the call as errored with no confirmation requested; a tool whose name
is in the auto-approve set, or that declares no confirmation needed, goes
directly to executing; otherwise the call waits for approval. -/
def startCall (reg : SchedToolRegistry) (st : SchedulerState) (req : ToolCallRequestInfo) : SchedCall :=
  match reg.lookup req.name with
  | none =>
      { request := req, status := .errored,
        response := some (errorResponse req.callId ("Tool not found: " ++ req.name)),
        trace := [.validating, .errored] }
  | some tool =>
      match tool.validate req.args with
      | some err =>
          { request := req, status := .errored,
            response := some (errorResponse req.callId err),
            trace := [.validating, .errored] }
      | none =>
          if st.autoApprove.contains req.name || !tool.needsConfirmation req.args then
            runExecution tool req [.validating]
          else
            { request := req, status := .awaitingApproval, response := none,
              trace := [.validating, .awaitingApproval] }

/-- Modelled from the spec: the single-shot confirmation decision callback
of a waiting tool call (sections 4.2 and 9).  Only a call still in
awaiting approval reacts: proceed-once runs the tool, proceed-always first
adds the tool name to the auto-approve set, cancel ends the call as
cancelled without executing.  On a call already decided the invocation is
ignored and changes nothing. -/
def onConfirm (reg : SchedToolRegistry) (st : SchedulerState) (c : SchedCall)
    (d : ToolConfirmationOutcome) : SchedulerState × SchedCall :=
  if c.status = .awaitingApproval then
    match reg.lookup c.request.name with
    | none => (st, c)
    | some tool =>
      match d with
      | .proceedOnce => (st, runExecution tool c.request c.trace)
      | .proceedAlwaysTool =>
          ({ autoApprove := c.request.name :: st.autoApprove }, runExecution tool c.request c.trace)
      | .cancel =>
          (st,
            { c with
              status := .cancelled
              response := some (cancelResponse c.request.callId)
              trace := c.trace ++ [.cancelled] })
  else (st, c)

/-- Modelled from the spec: scheduling of one tool call request (section
4.2), with the approver oracle standing for the interactive decision
channel.  A call that pauses in awaiting approval is resolved by exactly
one invocation of its confirmation callback. -/
def scheduleCall (reg : SchedToolRegistry) (approver : ToolCallRequestInfo → ToolConfirmationOutcome)
    (st : SchedulerState) (req : ToolCallRequestInfo) : SchedulerState × SchedCall :=
  let c := startCall reg st req
  if c.status = .awaitingApproval then onConfirm reg st c (approver req)
  else (st, c)

/-- Modelled from the spec: scheduling of a whole batch (section 4.2).
Calls are processed in batch order, approval prompts are resolved one at a
time in that order, and every request produces exactly one result. -/
def schedule (reg : SchedToolRegistry) (approver : ToolCallRequestInfo → ToolConfirmationOutcome) :
    SchedulerState → List ToolCallRequestInfo → SchedulerState × List SchedCall
  | st, [] => (st, [])
  | st, req :: reqs =>
    let r1 := scheduleCall reg approver st req
    let r2 := schedule reg approver r1.1 reqs
    (r2.1, r1.2 :: r2.2)

/-- A chunk of the streamed reply as consumed by runDemo in the step-4
source: a chunk-level functionCalls list plus content parts. -/
structure DemoChunk where
  functionCalls : List FunctionCall
  parts : List StreamPart
deriving DecidableEq

/-- The function calls collected by runDemo (step-4 source lines 441-444):
the chunk-level functionCalls lists concatenated in arrival order. -/
def demoCalls (chunks : List DemoChunk) : List FunctionCall :=
  chunks.foldl (fun fcs ch => fcs ++ ch.functionCalls) []

/-- The streamed text collected by runDemo (step-4 source lines 445-451):
truthy non-thought text concatenated in arrival order. -/
def demoText (chunks : List DemoChunk) : String :=
  chunks.foldl
    (fun s ch =>
      ch.parts.foldl
        (fun s2 p => if partTextTruthy p && !p.thought then s2 ++ partTextVal p else s2) s)
    ""

/-- The response aggregation of runDemo (step-4 source lines 472-480): for
each completed call whose responseParts is truthy, the parts (wrapped into
an array when the value is not one) are appended unconverted. -/
def demoAggregate (calls : List SchedCall) : List JsPart :=
  calls.foldl
    (fun acc c =>
      match c.response with
      | none => acc
      | some rp => if respTruthy rp then acc ++ respPartsList rp else acc)
    []

/-- One iteration of the while loop of runDemo (step-4 source lines
430-487): with at least one function call the batch is scheduled (the
scheduler is an oracle parameter here) and the loop continues with the
aggregated response parts; otherwise it finishes with exactly the streamed
text. -/
def runDemoStep (sched : List ToolCallRequestInfo → List SchedCall) (now : Nat)
    (chunks : List DemoChunk) : LoopOutcome :=
  match demoCalls chunks with
  | [] => .finished (demoText chunks)
  | _ :: _ => .continueWith (demoAggregate (sched ((demoCalls chunks).map (mkRequestInfo now))))

/-- The input to the next round after a runDemo round with tool calls
(step-4 source line 481). -/
def demoNextInput (sched : List ToolCallRequestInfo → List SchedCall) (now : Nat)
    (backend : List JsPart → List DemoChunk) (input : List JsPart) : List JsPart :=
  demoAggregate (sched ((demoCalls (backend input)).map (mkRequestInfo now)))

/-- The full while loop of runDemo (step-4 source lines 424-488), with the
backend and scheduler as oracles and explicit fuel. -/
def runDemo (sched : List ToolCallRequestInfo → List SchedCall) (now : Nat)
    (backend : List JsPart → List DemoChunk) : Nat → List JsPart → Option String
  | 0, _ => none
  | fuel + 1, input =>
    match runDemoStep sched now (backend input) with
    | .finished a => some a
    | .continueWith next => runDemo sched now backend fuel next
    | .thrown => none

/-- The trace of inputs sent to the backend by runDemo. -/
def demoInputs (sched : List ToolCallRequestInfo → List SchedCall) (now : Nat)
    (backend : List JsPart → List DemoChunk) : Nat → List JsPart → List JsPart
  | 0, input => input
  | k + 1, input => demoInputs sched now backend k (demoNextInput sched now backend input)

/-- The character set kept by the calculator regex replace in the step-5
source line 234: digits, the four arithmetic operators, parentheses, the
decimal point and whitespace. -/
def calculatorAllowedChar (c : Char) : Bool :=
  c.isDigit || c = '+' || c = '-' || c = '*' || c = '/' || c = '(' || c = ')' ||
  c = '.' || isJsWhitespace c

/-- The cleaned expression of the step-5 source line 234: every character
outside the allowed set is removed. -/
def cleanedExpression (e : String) : String :=
  String.mk (e.data.filter calculatorAllowedChar)

/-- CalculatorTool.evaluateExpression, step-5 source lines 232-240: when
the cleaned expression differs from the input an invalid-characters error
is thrown before any dynamic evaluation; otherwise the dynamic JavaScript
evaluation (the external engine, abstracted as the jsEval oracle returning
the rendered number or a thrown message) runs on the expression. -/
def evaluateExpression (jsEval : String → Except String String) (e : String) :
    Except String String :=
  if cleanedExpression e = e then jsEval (cleanedExpression e)
  else .error "Invalid characters in expression"

/-- The ToolResult record returned by CalculatorTool.execute: llmContent
parts and a display string. -/
structure ToolResult where
  llmContent : List PartObj
  returnDisplay : String
deriving DecidableEq

/-- CalculatorTool.execute, step-5 source lines 210-230: the evaluation is
wrapped in try/catch, so a thrown error becomes an error-describing
ToolResult and a result is returned in all cases. -/
def calculatorExecute (jsEval : String → Except String String) (expression : String) : ToolResult :=
  match evaluateExpression jsEval expression with
  | .ok r =>
      { llmContent := [.textObj (expression ++ " = " ++ r)]
        returnDisplay := expression ++ " = " ++ r }
  | .error msg =>
      { llmContent := [.textObj ("Error calculating " ++ expression ++ ": " ++ msg)]
        returnDisplay := "Error: " ++ msg }

/-- CalculatorTool.shouldConfirmExecute, step-5 source lines 242-244:
always false. -/
def calculatorShouldConfirmExecute : Bool := false

/-- CalculatorTool.validateToolParams, step-5 source lines 202-208: a
missing or falsy (empty) expression is rejected. -/
def calculatorValidateToolParams (args : List (String × String)) : Option String :=
  match args.lookup "expression" with
  | none => some "Expression parameter is required"
  | some s => if s = "" then some "Expression parameter is required" else none

/-- The calculator packaged as a registry tool: validation and confirmation
policy from the step-5 source, execution through calculatorExecute (which
never fails, hence always ok). -/
def calculatorToolSpec (jsEval : String → Except String String) : ToolSpec :=
  { validate := calculatorValidateToolParams
    needsConfirmation := fun _ => calculatorShouldConfirmExecute
    run := fun args =>
      .ok ((calculatorExecute jsEval ((args.lookup "expression").getD "")).llmContent.map
        JsPart.objPart) }

/-- The approval-input mapping of both step-4 sources (lines 117-128 and
404-415): the lowercased input y proceeds once, a proceeds always for the
tool, anything else cancels. -/
def step4Outcome (response : String) : ToolConfirmationOutcome :=
  if jsToLower response = "y" then .proceedOnce
  else if jsToLower response = "a" then .proceedAlwaysTool
  else .cancel

/-- The confirm helper of the step-5 source lines 247-251: the lowercased
answer y or yes approves. -/
def step5Approved (answer : String) : Bool :=
  jsToLower answer == "y" || jsToLower answer == "yes"

/-- The decision sent by the step-5 handler lines 320-326: proceed once
when approved, cancel otherwise. -/
def step5Outcome (answer : String) : ToolConfirmationOutcome :=
  if step5Approved answer then .proceedOnce else .cancel

/-- JavaScript truthiness of an environment variable value: present and
nonempty. -/
def envTruthy (v : Option String) : Bool :=
  v.getD "" != ""

/-- The top-level exit behaviour shared by every script: a missing (or
empty, hence falsy) GEMINI_API_KEY exits with code 1, an error escaping
main is caught and exits with code 1, and otherwise the process exits with
code 0. -/
def mainExitCode (apiKey : Option String) (bodyFails : Bool) : Nat :=
  if !envTruthy apiKey then 1
  else if bodyFails then 1
  else 0

/-- Whether a part is a non-null object part. -/
def isObjPart : JsPart → Bool
  | .objPart _ => true
  | _ => false

/-- Whether a call status is terminal. -/
def isTerminalStatus : CallStatus → Bool
  | .completed => true
  | .cancelled => true
  | .errored => true
  | _ => false

/-- The conversion applied to each part by the claimed normalization:
strings become text objects, null and undefined are dropped, objects are
kept. -/
def claimConvertPart : JsPart → Option JsPart
  | .strPart s => some (.objPart (.textObj s))
  | .nullPart => none
  | .objPart o => some (.objPart o)

/-- Follows the claim wording for the step-3 normalization: every non-array
responseParts value is wrapped into a single-element list, strings are
converted and null or undefined parts are dropped, with no truthiness guard
on the top-level value. -/
def claimNormalizeResponseParts (rp : Option RespParts) : List JsPart :=
  match rp with
  | none => []
  | some (.single p) => [p].filterMap claimConvertPart
  | some (.array ps) => ps.filterMap claimConvertPart

/-- The parts a call contributes to the runDemo aggregation. -/
def demoContribution (c : SchedCall) : List JsPart :=
  match c.response with
  | none => []
  | some rp => if respTruthy rp then respPartsList rp else []

/-- The error-describing ToolResult produced by CalculatorTool.execute
when the expression is rejected for invalid characters. -/
def calcInvalidResult (e : String) : ToolResult :=
  { llmContent := [.textObj ("Error calculating " ++ e ++ ": " ++ "Invalid characters in expression")]
    returnDisplay := "Error: " ++ "Invalid characters in expression" }

/-- A sample tool that requires confirmation, used to instantiate the
scheduler model on concrete inputs. -/
def sampleConfirmTool : ToolSpec :=
  { validate := fun _ => none
    needsConfirmation := fun _ => true
    run := fun _ => .ok [.objPart (.textObj "written")] }

/-- A sample tool that needs no confirmation. -/
def sampleNoConfirmTool : ToolSpec :=
  { validate := fun _ => none
    needsConfirmation := fun _ => false
    run := fun _ => .ok [.objPart (.textObj "matches")] }

/-- A sample registry holding only the confirming tool. -/
def sampleReg : SchedToolRegistry := [("write_file", sampleConfirmTool)]

/-- A sample registry holding a confirming and a non-confirming tool. -/
def sampleReg2 : SchedToolRegistry :=
  [("write_file", sampleConfirmTool), ("grep", sampleNoConfirmTool)]

/-- A sample request for the confirming tool. -/
def sampleReq : ToolCallRequestInfo :=
  { callId := "call-1", name := "write_file", args := [] }

/-- A second sample request for the confirming tool. -/
def sampleReq2 : ToolCallRequestInfo :=
  { callId := "call-2", name := "write_file", args := [] }

/-- A sample request for the non-confirming tool. -/
def sampleGrepReq : ToolCallRequestInfo :=
  { callId := "call-3", name := "grep", args := [] }

/-- A sample batch with one confirming and one non-confirming request. -/
def sampleBatch : List ToolCallRequestInfo := [sampleReq, sampleGrepReq]

/-- An approver that always answers proceed-always. -/
def alwaysApprover : ToolCallRequestInfo → ToolConfirmationOutcome :=
  fun _ => .proceedAlwaysTool

/-- An approver that always answers cancel. -/
def cancelApprover : ToolCallRequestInfo → ToolConfirmationOutcome :=
  fun _ => .cancel

/-- A sample call waiting for approval. -/
def sampleAwaitingCall : SchedCall :=
  { request := sampleReq, status := .awaitingApproval, response := none,
    trace := [.validating, .awaitingApproval] }

/-- A sample call already completed. -/
def sampleCompletedCall : SchedCall :=
  { request := sampleReq, status := .completed, response := some (.array []),
    trace := [.validating, .executing, .completed] }

/-- The cancelled result the scheduler model produces for the sample
confirming request under the cancelling approver. -/
def cancelledSample : SchedCall :=
  { request := sampleReq, status := .cancelled,
    response := some (cancelResponse "call-1"),
    trace := [.validating, .awaitingApproval, .cancelled] }

/-- A sample streamed round carrying exactly one function call. -/
def chatCallRound : List StreamPart :=
  [{ text := none, thought := false, functionCall := some { id := none, name := "ls", args := [] } }]

/-- An executor whose responseParts is an array, on which the unguarded
output access of src/03-tools.ts lines 92-93 throws a TypeError. -/
def crashExec : ToolCallRequestInfo → Option RespParts :=
  fun _ => some (.array [.strPart "s"])

lemma pushFold_eq_filterMap (ps : List JsPart) (acc : List JsPart) :
    ps.foldl pushToolResponsePart acc = acc ++ ps.filterMap claimConvertPart := by
  induction ps generalizing acc with
  | nil => simp
  | cons p ps ih =>
    cases p <;> simp [pushToolResponsePart, claimConvertPart, ih]

lemma mem_filterMap_claimConvert_obj (a : JsPart) (ps : List JsPart)
    (ha : a ∈ ps.filterMap claimConvertPart) : isObjPart a = true := by
  rcases List.mem_filterMap.1 ha with ⟨p, _, hc⟩
  cases p <;> simp [claimConvertPart] at hc <;> simp [← hc, isObjPart]

lemma collectResponseParts_ok_all_obj (rp : Option RespParts) (ps : List JsPart)
    (h : collectResponseParts rp = Except.ok ps) : ps.all isObjPart = true := by
  cases rp with
  | none =>
    cases h
    rfl
  | some r =>
    simp only [collectResponseParts] at h
    by_cases ht : respTruthy r = true
    · rw [if_pos ht] at h
      by_cases hx : outputAccessThrows r = true
      · rw [if_pos hx] at h
        cases h
      · rw [if_neg hx] at h
        cases h
        rw [pushFold_eq_filterMap, List.nil_append, List.all_eq_true]
        intro a ha
        exact mem_filterMap_claimConvert_obj a _ ha
    · rw [if_neg ht] at h
      cases h
      rfl

lemma chatToolResultsGo_all_obj (exec : ToolCallRequestInfo → Option RespParts) (now : Nat) :
    ∀ (fcs : List FunctionCall) (acc ps : List JsPart), acc.all isObjPart = true →
      chatToolResultsGo exec now fcs acc = Except.ok ps → ps.all isObjPart = true := by
  intro fcs
  induction fcs with
  | nil =>
    intro acc ps hacc h
    cases h
    exact hacc
  | cons fc fcs ih =>
    intro acc ps hacc h
    simp only [chatToolResultsGo] at h
    cases hc : collectResponseParts (exec (mkRequestInfo now fc)) with
    | error e =>
      rw [hc] at h
      cases h
    | ok parts =>
      rw [hc] at h
      exact ih (acc ++ parts) ps
        (by simp [List.all_append, hacc, collectResponseParts_ok_all_obj _ _ hc]) h

lemma chatToolResults_all_obj (exec : ToolCallRequestInfo → Option RespParts) (now : Nat)
    (fcs : List FunctionCall) (ps : List JsPart)
    (h : chatToolResults exec now fcs = Except.ok ps) : ps.all isObjPart = true :=
  chatToolResultsGo_all_obj exec now fcs [] ps rfl h

lemma chatToolResultsGo_safe (exec : ToolCallRequestInfo → Option RespParts) (now : Nat)
    (hsafe : execSafe exec) :
    ∀ (fcs : List FunctionCall) (acc : List JsPart),
      ∃ ps, chatToolResultsGo exec now fcs acc = Except.ok ps := by
  intro fcs
  induction fcs with
  | nil => intro acc; exact ⟨acc, rfl⟩
  | cons fc fcs ih =>
    intro acc
    obtain ⟨ps1, h1⟩ := hsafe (mkRequestInfo now fc)
    simp only [chatToolResultsGo, h1]
    exact ih (acc ++ ps1)

lemma demoAggregate_aux (calls : List SchedCall) (acc : List JsPart) :
    (calls.foldl
      (fun acc c =>
        match c.response with
        | none => acc
        | some rp => if respTruthy rp then acc ++ respPartsList rp else acc)
      acc)
    = acc ++ (calls.map demoContribution).flatten := by
  induction calls generalizing acc with
  | nil => simp
  | cons c cs ih =>
    simp only [List.foldl_cons, List.map_cons, List.flatten_cons]
    cases h : c.response with
    | none => simp [ih, demoContribution, h]
    | some rp =>
      by_cases ht : respTruthy rp = true
      · simp [ih, demoContribution, h, ht]
      · simp [ih, demoContribution, h, ht]

lemma demoAggregate_eq (calls : List SchedCall) :
    demoAggregate calls = (calls.map demoContribution).flatten := by
  simpa using demoAggregate_aux calls []

lemma mem_demoAggregate (c : SchedCall) (calls : List SchedCall) (p : JsPart)
    (hc : c ∈ calls) (hp : p ∈ demoContribution c) : p ∈ demoAggregate calls := by
  rw [demoAggregate_eq]
  exact List.mem_flatten.2 ⟨demoContribution c, List.mem_map_of_mem _ hc, hp⟩

lemma terminal_ne_awaiting (s : CallStatus) (h : isTerminalStatus s = true) :
    s ≠ CallStatus.awaitingApproval := by
  cases s <;> simp_all [isTerminalStatus]

lemma runExecution_terminal (tool : ToolSpec) (req : ToolCallRequestInfo)
    (pre : List CallStatus) :
    isTerminalStatus (runExecution tool req pre).status = true ∧
    (∃ ps, (runExecution tool req pre).response = some (RespParts.array ps)) ∧
    (runExecution tool req pre).request = req ∧
    (runExecution tool req pre).trace = pre ++ [CallStatus.executing, (runExecution tool req pre).status] := by
  unfold runExecution
  cases h : tool.run req.args with
  | ok parts => exact ⟨rfl, ⟨parts, rfl⟩, rfl, rfl⟩
  | error msg => exact ⟨rfl, ⟨_, rfl⟩, rfl, rfl⟩

lemma onConfirm_decided (reg : SchedToolRegistry) (st : SchedulerState) (c : SchedCall)
    (d : ToolConfirmationOutcome) (h : c.status ≠ CallStatus.awaitingApproval) :
    onConfirm reg st c d = (st, c) := by
  simp [onConfirm, h]

lemma onConfirm_idem (reg : SchedToolRegistry) (st : SchedulerState) (c : SchedCall)
    (d1 d2 : ToolConfirmationOutcome) :
    onConfirm reg (onConfirm reg st c d1).1 (onConfirm reg st c d1).2 d2
      = onConfirm reg st c d1 := by
  by_cases h : c.status = CallStatus.awaitingApproval
  · cases hl : reg.lookup c.request.name with
    | none =>
      have h1 : onConfirm reg st c d1 = (st, c) := by simp [onConfirm, h, hl]
      rw [h1]
      simp [onConfirm, h, hl]
    | some tool =>
      cases d1 with
      | proceedOnce =>
        have h1 : onConfirm reg st c .proceedOnce = (st, runExecution tool c.request c.trace) := by
          simp [onConfirm, h, hl]
        rw [h1]
        exact onConfirm_decided _ _ _ _
          (terminal_ne_awaiting _ (runExecution_terminal tool c.request c.trace).1)
      | proceedAlwaysTool =>
        have h1 : onConfirm reg st c .proceedAlwaysTool
            = ({ autoApprove := c.request.name :: st.autoApprove },
               runExecution tool c.request c.trace) := by
          simp [onConfirm, h, hl]
        rw [h1]
        exact onConfirm_decided _ _ _ _
          (terminal_ne_awaiting _ (runExecution_terminal tool c.request c.trace).1)
      | cancel =>
        have h1 : onConfirm reg st c .cancel
            = (st,
              { c with
                status := CallStatus.cancelled
                response := some (cancelResponse c.request.callId)
                trace := c.trace ++ [CallStatus.cancelled] }) := by
          simp [onConfirm, h, hl]
        rw [h1]
        exact onConfirm_decided _ _ _ _ (by simp)
  · rw [onConfirm_decided reg st c d1 h]
    exact onConfirm_decided reg st c d2 h

lemma startCall_awaiting_eq (reg : SchedToolRegistry) (st : SchedulerState)
    (req : ToolCallRequestInfo)
    (h : (startCall reg st req).status = CallStatus.awaitingApproval) :
    ∃ tool, reg.lookup req.name = some tool ∧
      startCall reg st req
        = { request := req, status := CallStatus.awaitingApproval, response := none,
            trace := [CallStatus.validating, CallStatus.awaitingApproval] } := by
  cases hl : reg.lookup req.name with
  | none => simp [startCall, hl] at h
  | some tool =>
    cases hv : tool.validate req.args with
    | some err => simp [startCall, hl, hv] at h
    | none =>
      by_cases hc : (st.autoApprove.contains req.name || !tool.needsConfirmation req.args) = true
      · exfalso
        simp only [startCall, hl, hv, hc, if_true] at h
        exact terminal_ne_awaiting _ (runExecution_terminal tool req _).1 h
      · obtain ⟨hm, hn⟩ : req.name ∉ st.autoApprove ∧ tool.needsConfirmation req.args = true := by
          simpa using hc
        refine ⟨tool, rfl, ?_⟩
        simp [startCall, hl, hv, hm, hn]

lemma startCall_not_awaiting_shape (reg : SchedToolRegistry) (st : SchedulerState)
    (req : ToolCallRequestInfo)
    (h : (startCall reg st req).status ≠ CallStatus.awaitingApproval) :
    isTerminalStatus (startCall reg st req).status = true ∧
    (∃ ps, (startCall reg st req).response = some (RespParts.array ps)) ∧
    (startCall reg st req).request = req := by
  cases hl : reg.lookup req.name with
  | none => simp [startCall, hl, isTerminalStatus, errorResponse]
  | some tool =>
    cases hv : tool.validate req.args with
    | some err => simp [startCall, hl, hv, isTerminalStatus, errorResponse]
    | none =>
      by_cases hc : (st.autoApprove.contains req.name || !tool.needsConfirmation req.args) = true
      · simp only [startCall, hl, hv, hc, if_true]
        obtain ⟨h1, h2, h3, _⟩ := runExecution_terminal tool req [CallStatus.validating]
        exact ⟨h1, h2, h3⟩
      · obtain ⟨hm, hn⟩ : req.name ∉ st.autoApprove ∧ tool.needsConfirmation req.args = true := by
          simpa using hc
        exfalso
        apply h
        simp [startCall, hl, hv, hm, hn]

lemma scheduleCall_shape (reg : SchedToolRegistry)
    (approver : ToolCallRequestInfo → ToolConfirmationOutcome)
    (st : SchedulerState) (req : ToolCallRequestInfo) :
    isTerminalStatus ((scheduleCall reg approver st req).2).status = true ∧
    (∃ ps, ((scheduleCall reg approver st req).2).response = some (RespParts.array ps)) ∧
    ((scheduleCall reg approver st req).2).request = req := by
  simp only [scheduleCall]
  by_cases h : (startCall reg st req).status = CallStatus.awaitingApproval
  · rw [if_pos h]
    obtain ⟨tool, hl, heq⟩ := startCall_awaiting_eq reg st req h
    rw [heq]
    cases ha : approver req with
    | proceedOnce =>
      simp only [onConfirm, hl, if_pos rfl]
      obtain ⟨h1, h2, h3, _⟩ :=
        runExecution_terminal tool req [CallStatus.validating, CallStatus.awaitingApproval]
      exact ⟨h1, h2, h3⟩
    | proceedAlwaysTool =>
      simp only [onConfirm, hl, if_pos rfl]
      obtain ⟨h1, h2, h3, _⟩ :=
        runExecution_terminal tool req [CallStatus.validating, CallStatus.awaitingApproval]
      exact ⟨h1, h2, h3⟩
    | cancel =>
      simp only [onConfirm, hl, if_pos rfl]
      exact ⟨rfl, ⟨_, rfl⟩, rfl⟩
  · rw [if_neg h]
    exact startCall_not_awaiting_shape reg st req h

lemma schedule_length (reg : SchedToolRegistry)
    (approver : ToolCallRequestInfo → ToolConfirmationOutcome) :
    ∀ (st : SchedulerState) (reqs : List ToolCallRequestInfo),
      ((schedule reg approver st reqs).2).length = reqs.length := by
  intro st reqs
  induction reqs generalizing st with
  | nil => rfl
  | cons req reqs ih => simp [schedule, ih]

lemma schedule_mem_shape (reg : SchedToolRegistry)
    (approver : ToolCallRequestInfo → ToolConfirmationOutcome) :
    ∀ (st : SchedulerState) (reqs : List ToolCallRequestInfo) (c : SchedCall),
      c ∈ (schedule reg approver st reqs).2 →
      isTerminalStatus c.status = true ∧
      (∃ ps, c.response = some (RespParts.array ps)) := by
  intro st reqs
  induction reqs generalizing st with
  | nil => intro c hc; simp [schedule] at hc
  | cons req reqs ih =>
    intro c hc
    simp only [schedule, List.mem_cons] at hc
    rcases hc with rfl | hc
    · obtain ⟨h1, h2, _⟩ := scheduleCall_shape reg approver st req
      exact ⟨h1, h2⟩
    · exact ih _ c hc

lemma schedule_append (reg : SchedToolRegistry)
    (approver : ToolCallRequestInfo → ToolConfirmationOutcome) :
    ∀ (st : SchedulerState) (xs ys : List ToolCallRequestInfo),
      schedule reg approver st (xs ++ ys)
        = ((schedule reg approver (schedule reg approver st xs).1 ys).1,
           (schedule reg approver st xs).2
             ++ (schedule reg approver (schedule reg approver st xs).1 ys).2) := by
  intro st xs
  induction xs generalizing st with
  | nil => intro ys; simp [schedule]
  | cons x xs ih => intro ys; simp [schedule, ih]

lemma runChatStep_finished (exec : ToolCallRequestInfo → Option RespParts) (now : Nat)
    (round : List StreamPart) (h : (consumeStream round).functionCalls = []) :
    runChatStep exec now round = .finished (jsTrim (consumeStream round).responseText) := by
  simp [runChatStep, h]

lemma runChatStep_finished_iff (exec : ToolCallRequestInfo → Option RespParts) (now : Nat)
    (round : List StreamPart) :
    runChatStep exec now round = .finished (jsTrim (consumeStream round).responseText) ↔
    (consumeStream round).functionCalls = [] := by
  constructor
  · intro h
    cases hc : (consumeStream round).functionCalls with
    | nil => rfl
    | cons fc fcs =>
      exfalso
      simp only [runChatStep, hc] at h
      cases hr : chatToolResults exec now (fc :: fcs) with
      | error e => rw [hr] at h; cases h
      | ok parts => rw [hr] at h; cases h
  · exact runChatStep_finished exec now round

lemma runChatStep_continue (exec : ToolCallRequestInfo → Option RespParts) (now : Nat)
    (round : List StreamPart) (parts : List JsPart)
    (h : (consumeStream round).functionCalls ≠ [])
    (hok : chatToolResults exec now (consumeStream round).functionCalls = Except.ok parts) :
    runChatStep exec now round = .continueWith parts := by
  cases hc : (consumeStream round).functionCalls with
  | nil => exact absurd hc h
  | cons fc fcs =>
    rw [hc] at hok
    simp [runChatStep, hc, hok]

lemma runChatStep_thrown (exec : ToolCallRequestInfo → Option RespParts) (now : Nat)
    (round : List StreamPart) (e : Unit)
    (h : (consumeStream round).functionCalls ≠ [])
    (herr : chatToolResults exec now (consumeStream round).functionCalls = Except.error e) :
    runChatStep exec now round = .thrown := by
  cases hc : (consumeStream round).functionCalls with
  | nil => exact absurd hc h
  | cons fc fcs =>
    rw [hc] at herr
    simp [runChatStep, hc, herr]

lemma runChatWithTool_answer_iff (exec : ToolCallRequestInfo → Option RespParts) (now : Nat)
    (backend : List JsPart → List StreamPart) (hsafe : execSafe exec) :
    ∀ (fuel : Nat) (input : List JsPart),
      (∃ a, runChatWithTool exec now backend fuel input = ChatRunResult.answer a) ↔
      ∃ k, k < fuel ∧
        (consumeStream (backend (chatInputs exec now backend k input))).functionCalls = [] := by
  intro fuel
  induction fuel with
  | zero =>
    intro input
    simp [runChatWithTool]
  | succ n ih =>
    intro input
    cases h : (consumeStream (backend input)).functionCalls with
    | nil =>
      rw [runChatWithTool, runChatStep_finished exec now (backend input) h]
      constructor
      · intro _
        exact ⟨0, Nat.succ_pos n, h⟩
      · intro _
        exact ⟨_, rfl⟩
    | cons fc fcs =>
      obtain ⟨ps, hok⟩ := chatToolResultsGo_safe exec now hsafe
        ((consumeStream (backend input)).functionCalls) []
      have hok2 : chatToolResults exec now (consumeStream (backend input)).functionCalls
          = Except.ok ps := hok
      rw [runChatWithTool, runChatStep_continue exec now (backend input) ps (by rw [h]; simp) hok2]
      have hnext : chatNextInput exec now backend input = ps := by
        simp [chatNextInput, hok2]
      rw [← hnext, ih (chatNextInput exec now backend input)]
      constructor
      · rintro ⟨k, hk, hcalls⟩
        exact ⟨k + 1, Nat.succ_lt_succ hk, hcalls⟩
      · rintro ⟨k, hk, hcalls⟩
        cases k with
        | zero =>
          exfalso
          simp only [chatInputs] at hcalls
          rw [h] at hcalls
          cases hcalls
        | succ k =>
          exact ⟨k, Nat.lt_of_succ_lt_succ hk, hcalls⟩

lemma runDemoStep_finished (sched : List ToolCallRequestInfo → List SchedCall) (now : Nat)
    (chunks : List DemoChunk) (h : demoCalls chunks = []) :
    runDemoStep sched now chunks = .finished (demoText chunks) := by
  simp [runDemoStep, h]

lemma runDemoStep_continue (sched : List ToolCallRequestInfo → List SchedCall) (now : Nat)
    (chunks : List DemoChunk) (h : demoCalls chunks ≠ []) :
    runDemoStep sched now chunks
      = .continueWith (demoAggregate (sched ((demoCalls chunks).map (mkRequestInfo now)))) := by
  cases hc : demoCalls chunks with
  | nil => exact absurd hc h
  | cons fc fcs => simp [runDemoStep, hc]

lemma runDemo_isSome_iff (sched : List ToolCallRequestInfo → List SchedCall) (now : Nat)
    (backend : List JsPart → List DemoChunk) :
    ∀ (fuel : Nat) (input : List JsPart),
      (runDemo sched now backend fuel input).isSome = true ↔
      ∃ k, k < fuel ∧ demoCalls (backend (demoInputs sched now backend k input)) = [] := by
  intro fuel
  induction fuel with
  | zero =>
    intro input
    simp [runDemo]
  | succ n ih =>
    intro input
    cases h : demoCalls (backend input) with
    | nil =>
      rw [runDemo, runDemoStep_finished sched now (backend input) h]
      simp only [Option.isSome_some, true_iff]
      exact ⟨0, Nat.succ_pos n, h⟩
    | cons fc fcs =>
      rw [runDemo, runDemoStep_continue sched now (backend input) (by rw [h]; simp)]
      have hnext : demoAggregate (sched ((demoCalls (backend input)).map (mkRequestInfo now)))
          = demoNextInput sched now backend input := rfl
      rw [hnext, ih (demoNextInput sched now backend input)]
      constructor
      · rintro ⟨k, hk, hcalls⟩
        exact ⟨k + 1, Nat.succ_lt_succ hk, hcalls⟩
      · rintro ⟨k, hk, hcalls⟩
        cases k with
        | zero =>
          exfalso
          simp only [demoInputs] at hcalls
          rw [h] at hcalls
          cases hcalls
        | succ k =>
          exact ⟨k, Nat.lt_of_succ_lt_succ hk, hcalls⟩

lemma runExecution_awaiting_not_mem (tool : ToolSpec) (req : ToolCallRequestInfo)
    (pre : List CallStatus) (hpre : CallStatus.awaitingApproval ∉ pre) :
    CallStatus.awaitingApproval ∉ (runExecution tool req pre).trace := by
  obtain ⟨hterm, _, _, htrace⟩ := runExecution_terminal tool req pre
  rw [htrace]
  intro hmem
  rcases List.mem_append.1 hmem with hm | hm
  · exact hpre hm
  · rcases List.mem_cons.1 hm with he | hm2
    · cases he
    · rcases List.mem_singleton.1 hm2 with he2
      exact terminal_ne_awaiting _ hterm he2.symm

lemma scheduleCall_no_confirm_trace (reg : SchedToolRegistry) (st : SchedulerState)
    (approver : ToolCallRequestInfo → ToolConfirmationOutcome)
    (req : ToolCallRequestInfo) (tool : ToolSpec)
    (hl : reg.lookup req.name = some tool)
    (hn : tool.needsConfirmation req.args = false) :
    CallStatus.awaitingApproval ∉ ((scheduleCall reg approver st req).2).trace := by
  simp only [scheduleCall]
  cases hv : tool.validate req.args with
  | some err =>
    have hs : startCall reg st req
        = { request := req, status := CallStatus.errored,
            response := some (errorResponse req.callId err),
            trace := [CallStatus.validating, CallStatus.errored] } := by
      simp [startCall, hl, hv]
    rw [hs]
    rw [if_neg (by simp)]
    show CallStatus.awaitingApproval ∉ [CallStatus.validating, CallStatus.errored]
    decide
  | none =>
    have hs : startCall reg st req = runExecution tool req [CallStatus.validating] := by
      simp [startCall, hl, hv, hn]
    rw [hs]
    rw [if_neg (terminal_ne_awaiting _ (runExecution_terminal tool req [CallStatus.validating]).1)]
    exact runExecution_awaiting_not_mem tool req _ (by decide)

lemma scheduleCall_auto_approved_trace (reg : SchedToolRegistry) (st : SchedulerState)
    (approver : ToolCallRequestInfo → ToolConfirmationOutcome)
    (req : ToolCallRequestInfo) (tool : ToolSpec)
    (hl : reg.lookup req.name = some tool)
    (hmem : req.name ∈ st.autoApprove) :
    CallStatus.awaitingApproval ∉ ((scheduleCall reg approver st req).2).trace := by
  simp only [scheduleCall]
  cases hv : tool.validate req.args with
  | some err =>
    have hs : startCall reg st req
        = { request := req, status := CallStatus.errored,
            response := some (errorResponse req.callId err),
            trace := [CallStatus.validating, CallStatus.errored] } := by
      simp [startCall, hl, hv]
    rw [hs]
    rw [if_neg (by simp)]
    show CallStatus.awaitingApproval ∉ [CallStatus.validating, CallStatus.errored]
    decide
  | none =>
    have hs : startCall reg st req = runExecution tool req [CallStatus.validating] := by
      simp [startCall, hl, hv, hmem]
    rw [hs]
    rw [if_neg (terminal_ne_awaiting _ (runExecution_terminal tool req [CallStatus.validating]).1)]
    exact runExecution_awaiting_not_mem tool req _ (by decide)

lemma scheduleCall_proceed_always_state (reg : SchedToolRegistry) (st : SchedulerState)
    (approver : ToolCallRequestInfo → ToolConfirmationOutcome)
    (req : ToolCallRequestInfo) (tool : ToolSpec)
    (hl : reg.lookup req.name = some tool)
    (hv : tool.validate req.args = none)
    (hc : tool.needsConfirmation req.args = true)
    (hnm : req.name ∉ st.autoApprove)
    (hd : approver req = ToolConfirmationOutcome.proceedAlwaysTool) :
    (scheduleCall reg approver st req).1 = { autoApprove := req.name :: st.autoApprove } := by
  have hs : startCall reg st req
      = { request := req, status := CallStatus.awaitingApproval, response := none,
          trace := [CallStatus.validating, CallStatus.awaitingApproval] } := by
    simp [startCall, hl, hv, hnm, hc]
  simp only [scheduleCall, hs]
  simp [onConfirm, hl, hd]

lemma cleanedExpression_ne (e : String) (hbad : e.data.all calculatorAllowedChar = false) :
    cleanedExpression e ≠ e := by
  intro hcontr
  have hdata : e.data.filter calculatorAllowedChar = e.data := congrArg String.data hcontr
  have hall : ∀ a ∈ e.data, calculatorAllowedChar a = true := List.filter_eq_self.1 hdata
  rw [List.all_eq_true.2 hall] at hbad
  cases hbad

/-- Claim C1 (amended): both loops return a final answer exactly when a
round of the streamed reply contains zero tool-call requests.  In the
step-4 runDemo loop every round with at least one request leads to another
backend round whose input is the aggregated tool results.  In the step-3
loop a round with at least one request leads to another backend round with
the tool results as input only when every call's truthy responseParts
survives the unguarded functionResponse.response.output access of
src/03-tools.ts lines 92-93; when that access throws, the TypeError
escapes the loop and the script exits without a further round, and for an
executor whose responses always survive, the loop yields an answer within
the given fuel exactly when some round along the generated input trace has
zero tool-call requests. -/
theorem turn_loop_termination
    (exec : ToolCallRequestInfo → Option RespParts) (now : Nat)
    (backend : List JsPart → List StreamPart)
    (sched : List ToolCallRequestInfo → List SchedCall)
    (dbackend : List JsPart → List DemoChunk)
    (fuel : Nat) (input : List JsPart)
    (round : List StreamPart) (parts : List JsPart)
    (hsafe : execSafe exec)
    (hcalls : (consumeStream round).functionCalls ≠ [])
    (hok : chatToolResults exec now (consumeStream round).functionCalls = Except.ok parts) :
    (runChatStep exec now round = .finished (jsTrim (consumeStream round).responseText) ↔
      (consumeStream round).functionCalls = []) ∧
    runChatStep exec now round = .continueWith parts ∧
    (runChatWithTool exec now backend (fuel + 1) input
      = (match runChatStep exec now (backend input) with
         | .finished a => ChatRunResult.answer a
         | .thrown => ChatRunResult.exnExit
         | .continueWith next => runChatWithTool exec now backend fuel next)) ∧
    ((∃ a, runChatWithTool exec now backend fuel input = ChatRunResult.answer a) ↔
      ∃ k, k < fuel ∧
        (consumeStream (backend (chatInputs exec now backend k input))).functionCalls = []) ∧
    (runDemo sched now dbackend (fuel + 1) input
      = (match demoCalls (dbackend input) with
         | [] => some (demoText (dbackend input))
         | _ :: _ => runDemo sched now dbackend fuel (demoNextInput sched now dbackend input))) ∧
    ((runDemo sched now dbackend fuel input).isSome = true ↔
      ∃ k, k < fuel ∧ demoCalls (dbackend (demoInputs sched now dbackend k input)) = []) := by
  refine ⟨runChatStep_finished_iff exec now round,
    runChatStep_continue exec now round parts hcalls hok,
    rfl,
    runChatWithTool_answer_iff exec now backend hsafe fuel input, ?_,
    runDemo_isSome_iff sched now dbackend fuel input⟩
  cases h : demoCalls (dbackend input) with
  | nil =>
    rw [runDemo, runDemoStep_finished sched now (dbackend input) h]
  | cons fc fcs =>
    rw [runDemo, runDemoStep_continue sched now (dbackend input) (by rw [h]; simp)]
    rfl

/-- Witness for turn_loop_termination with a safe executor at a concrete
round carrying one function call. -/
theorem turn_loop_termination_witness :
    execSafe (fun _ => none) ∧
    (consumeStream chatCallRound).functionCalls ≠ [] ∧
    chatToolResults (fun _ => none) 0 (consumeStream chatCallRound).functionCalls
      = Except.ok [] ∧
    runChatStep (fun _ => none) 0 chatCallRound = LoopOutcome.continueWith [] := by
  refine ⟨fun q => ⟨[], rfl⟩, by decide, rfl, ?_⟩
  exact (turn_loop_termination (fun _ => none) 0 (fun _ => []) (fun _ => []) (fun _ => [])
    0 [] chatCallRound [] (fun q => ⟨[], rfl⟩) (by decide) rfl).2.1

/-- Counterexample to claim C1 as stated: on a round with one tool-call
request whose executor returns an array-valued responseParts, the
unguarded output access of src/03-tools.ts lines 92-93 throws, so the
step-3 loop exits with an uncaught TypeError instead of performing another
backend round with the tool results as input. -/
theorem turn_loop_counterexample :
    (consumeStream chatCallRound).functionCalls
      = [{ id := none, name := "ls", args := [] }] ∧
    chatToolResults crashExec 0 (consumeStream chatCallRound).functionCalls
      = Except.error () ∧
    runChatStep crashExec 0 chatCallRound = LoopOutcome.thrown ∧
    runChatWithTool crashExec 0 (fun _ => chatCallRound) 5 [] = ChatRunResult.exnExit ∧
    ChatRunResult.exnExit
      ≠ ChatRunResult.answer (jsTrim (consumeStream chatCallRound).responseText) := by
  exact ⟨by decide, rfl, by decide, by decide, by decide⟩

/-- Claim C2 (amended): in a turn whose streamed reply contains no
tool-call request, the step-3 loop finishes with the accumulated content
text trimmed of leading and trailing whitespace, the step-4 runDemo loop
finishes with exactly the accumulated content text, and neither invokes
the tool executor or the scheduler in that turn (the outcome is
independent of the executor and scheduler oracles). -/
theorem no_toolcall_round_returns_text
    (exec exec2 : ToolCallRequestInfo → Option RespParts)
    (sched sched2 : List ToolCallRequestInfo → List SchedCall)
    (now : Nat) (round : List StreamPart) (chunks : List DemoChunk)
    (h1 : (consumeStream round).functionCalls = [])
    (h2 : demoCalls chunks = []) :
    runChatStep exec now round = .finished (jsTrim (consumeStream round).responseText) ∧
    runChatStep exec now round = runChatStep exec2 now round ∧
    runDemoStep sched now chunks = .finished (demoText chunks) ∧
    runDemoStep sched now chunks = runDemoStep sched2 now chunks := by
  refine ⟨runChatStep_finished exec now round h1, ?_,
    runDemoStep_finished sched now chunks h2, ?_⟩
  · rw [runChatStep_finished exec now round h1, runChatStep_finished exec2 now round h1]
  · rw [runDemoStep_finished sched now chunks h2, runDemoStep_finished sched2 now chunks h2]

/-- Witness for no_toolcall_round_returns_text at a concrete round with no
tool calls. -/
theorem no_toolcall_round_returns_text_witness :
    (consumeStream [{ text := some "Paris", thought := false, functionCall := none }]).functionCalls
      = [] ∧
    demoCalls [] = [] ∧
    runChatStep (fun _ => none) 0 [{ text := some "Paris", thought := false, functionCall := none }]
      = .finished (jsTrim (consumeStream
          [{ text := some "Paris", thought := false, functionCall := none }]).responseText) := by
  refine ⟨by decide, rfl, ?_⟩
  exact (no_toolcall_round_returns_text (fun _ => none) (fun _ => none) (fun _ => []) (fun _ => [])
    0 [{ text := some "Paris", thought := false, functionCall := none }] [] (by decide) rfl).1

/-- Counterexample to claim C2 as stated: on a zero-tool-call round whose
accumulated content text is the string space-Paris-space, the step-3 loop
finishes with the trimmed text Paris, not with the accumulated content
text itself. -/
theorem no_toolcall_round_trim_counterexample :
    (consumeStream [{ text := some " Paris ", thought := false, functionCall := none }]).functionCalls
      = [] ∧
    (consumeStream [{ text := some " Paris ", thought := false, functionCall := none }]).responseText
      = " Paris " ∧
    runChatStep (fun _ => none) 0 [{ text := some " Paris ", thought := false, functionCall := none }]
      = LoopOutcome.finished "Paris" ∧
    ("Paris" : String) ≠ " Paris " := by
  exact ⟨by decide, by decide, by decide, by decide⟩

/-- Claim C3 (amended): at the step-4 approval prompts the lowercased input
y maps to proceed-once, a maps to proceed-always-for-this-tool and any
input whose lowercasing is neither y nor a maps to cancel; at the step-5
prompt the lowercased input y or yes maps to proceed-once and any other
input, including a, maps to cancel. -/
theorem approval_input_mapping (s t : String)
    (hs1 : jsToLower s ≠ "y") (hs2 : jsToLower s ≠ "a")
    (ht1 : jsToLower t ≠ "y") (ht2 : jsToLower t ≠ "yes") :
    step4Outcome "y" = ToolConfirmationOutcome.proceedOnce ∧
    step4Outcome "a" = ToolConfirmationOutcome.proceedAlwaysTool ∧
    step4Outcome s = ToolConfirmationOutcome.cancel ∧
    step5Outcome "y" = ToolConfirmationOutcome.proceedOnce ∧
    step5Outcome "yes" = ToolConfirmationOutcome.proceedOnce ∧
    step5Outcome t = ToolConfirmationOutcome.cancel := by
  refine ⟨by decide, by decide, ?_, by decide, by decide, ?_⟩
  · simp [step4Outcome, hs1, hs2]
  · simp [step5Outcome, step5Approved, ht1, ht2]

/-- Witness for approval_input_mapping at the concrete inputs n and a. -/
theorem approval_input_mapping_witness :
    jsToLower "n" ≠ "y" ∧ jsToLower "n" ≠ "a" ∧
    jsToLower "a" ≠ "y" ∧ jsToLower "a" ≠ "yes" ∧
    step4Outcome "n" = ToolConfirmationOutcome.cancel ∧
    step5Outcome "a" = ToolConfirmationOutcome.cancel := by
  refine ⟨by decide, by decide, by decide, by decide, ?_, ?_⟩
  · exact (approval_input_mapping "n" "a" (by decide) (by decide) (by decide) (by decide)).2.2.1
  · exact (approval_input_mapping "n" "a" (by decide) (by decide) (by decide)
      (by decide)).2.2.2.2.2

/-- Counterexample to claim C3 as stated: the input a maps to
proceed-always at the step-4 prompts but to cancel at the step-5 prompt,
and the step-5 prompt maps yes to proceed-once rather than cancel, so the
mapping is not the same at every approval prompt in every script. -/
theorem approval_input_mapping_counterexample :
    step4Outcome "a" = ToolConfirmationOutcome.proceedAlwaysTool ∧
    step5Outcome "a" = ToolConfirmationOutcome.cancel ∧
    step5Outcome "yes" = ToolConfirmationOutcome.proceedOnce ∧
    step4Outcome "a" ≠ step5Outcome "a" := by
  exact ⟨by decide, by decide, by decide, by decide⟩

/-- Claim C4: after a proceed-always decision for a tool name, the name is
in the auto-approve set of the scheduler state for the rest of the
scheduler lifetime, a later request for the same tool name scheduled
against that state never traverses the awaiting-approval status, and the
results of calls scheduled earlier are unaffected by the later decision
(batch results decompose as an append). -/
theorem proceed_always_auto_approves
    (reg : SchedToolRegistry) (st : SchedulerState)
    (approver : ToolCallRequestInfo → ToolConfirmationOutcome)
    (req req2 : ToolCallRequestInfo) (tool : ToolSpec)
    (xs : List ToolCallRequestInfo)
    (hfind : reg.lookup req.name = some tool)
    (hvalid : tool.validate req.args = none)
    (hconf : tool.needsConfirmation req.args = true)
    (hnot : req.name ∉ st.autoApprove)
    (hdec : approver req = ToolConfirmationOutcome.proceedAlwaysTool)
    (hname2 : req2.name = req.name) :
    req.name ∈ ((scheduleCall reg approver st req).1).autoApprove ∧
    CallStatus.awaitingApproval ∉
      ((scheduleCall reg approver (scheduleCall reg approver st req).1 req2).2).trace ∧
    (schedule reg approver st (xs ++ [req2])).2
      = (schedule reg approver st xs).2
        ++ [(scheduleCall reg approver (schedule reg approver st xs).1 req2).2] := by
  have hst := scheduleCall_proceed_always_state reg st approver req tool hfind hvalid hconf
    hnot hdec
  refine ⟨?_, ?_, ?_⟩
  · rw [hst]
    exact List.mem_cons_self _ _
  · apply scheduleCall_auto_approved_trace _ _ approver req2 tool
    · rw [hname2]
      exact hfind
    · rw [hst, hname2]
      exact List.mem_cons_self _ _
  · rw [schedule_append reg approver st xs [req2]]
    simp [schedule]

/-- Witness for proceed_always_auto_approves on the sample registry. -/
theorem proceed_always_auto_approves_witness :
    sampleReg.lookup sampleReq.name = some sampleConfirmTool ∧
    sampleConfirmTool.validate sampleReq.args = none ∧
    sampleConfirmTool.needsConfirmation sampleReq.args = true ∧
    sampleReq.name ∉ (SchedulerState.mk []).autoApprove ∧
    sampleReq.name
      ∈ ((scheduleCall sampleReg alwaysApprover (SchedulerState.mk []) sampleReq).1).autoApprove ∧
    CallStatus.awaitingApproval ∉
      ((scheduleCall sampleReg alwaysApprover
        (scheduleCall sampleReg alwaysApprover (SchedulerState.mk []) sampleReq).1
        sampleReq2).2).trace := by
  refine ⟨rfl, rfl, rfl, by decide, ?_, ?_⟩
  · exact (proceed_always_auto_approves sampleReg (SchedulerState.mk []) alwaysApprover
      sampleReq sampleReq2 sampleConfirmTool [] rfl rfl rfl (by decide) rfl rfl).1
  · exact (proceed_always_auto_approves sampleReg (SchedulerState.mk []) alwaysApprover
      sampleReq sampleReq2 sampleConfirmTool [] rfl rfl rfl (by decide) rfl rfl).2.1

/-- Claim C5: in a scheduled batch every request yields exactly one
terminal-status result, so a call that ends cancelled or errored does not
abort its sibling calls, and every call (cancelled and errored included)
carries a payload whose parts all appear in the aggregated response parts
that runDemo feeds back to the backend as the next round of input. -/
theorem batch_error_isolation
    (reg : SchedToolRegistry)
    (approver : ToolCallRequestInfo → ToolConfirmationOutcome)
    (st : SchedulerState) (reqs : List ToolCallRequestInfo)
    (c : SchedCall) (hc : c ∈ (schedule reg approver st reqs).2) :
    ((schedule reg approver st reqs).2).length = reqs.length ∧
    isTerminalStatus c.status = true ∧
    (∃ ps, c.response = some (RespParts.array ps) ∧
      ∀ p ∈ ps, p ∈ demoAggregate (schedule reg approver st reqs).2) := by
  obtain ⟨hterm, ps, hresp⟩ := schedule_mem_shape reg approver st reqs c hc
  refine ⟨schedule_length reg approver st reqs, hterm, ps, hresp, ?_⟩
  intro p hp
  apply mem_demoAggregate c _ p hc
  have hcontrib : demoContribution c = ps := by
    simp [demoContribution, hresp, respTruthy, respPartsList]
  rw [hcontrib]
  exact hp

/-- Witness for batch_error_isolation: in the sample batch the cancelled
write call and the completed grep call both appear as terminal results and
the batch is not aborted. -/
theorem batch_error_isolation_witness :
    cancelledSample ∈ (schedule sampleReg2 cancelApprover (SchedulerState.mk []) sampleBatch).2 ∧
    isTerminalStatus cancelledSample.status = true ∧
    ((schedule sampleReg2 cancelApprover (SchedulerState.mk []) sampleBatch).2).length
      = sampleBatch.length := by
  refine ⟨by decide, ?_, ?_⟩
  · exact (batch_error_isolation sampleReg2 cancelApprover (SchedulerState.mk []) sampleBatch
      cancelledSample (by decide)).2.1
  · exact (batch_error_isolation sampleReg2 cancelApprover (SchedulerState.mk []) sampleBatch
      cancelledSample (by decide)).1

/-- Claim C6 (amended): when the backend supplies no identifier every
script generates the callId as the tool name, a dash and the timestamp;
when it supplies a nonempty identifier every script uses it unchanged; the
scripts differ on a supplied empty identifier, which the
nullish-coalescing scripts (current step 3 and step 4) keep unchanged and
the logical-or scripts (older step 3 and step 5) replace by the generated
one. -/
theorem call_id_construction (now : Nat) (fc : FunctionCall) :
    (fc.id = none →
      callIdNullish now fc = generatedCallId now fc ∧
      callIdOrElse now fc = generatedCallId now fc) ∧
    (∀ s, fc.id = some s → callIdNullish now fc = s) ∧
    (∀ s, fc.id = some s → s ≠ "" → callIdOrElse now fc = s) ∧
    (fc.id = some "" → callIdOrElse now fc = generatedCallId now fc) := by
  refine ⟨?_, ?_, ?_, ?_⟩
  · intro h
    exact ⟨by simp [callIdNullish, h], by simp [callIdOrElse, h]⟩
  · intro s h
    simp [callIdNullish, h]
  · intro s h hne
    simp [callIdOrElse, h, hne]
  · intro h
    simp [callIdOrElse, h]

/-- Witness for call_id_construction at concrete function calls. -/
theorem call_id_construction_witness :
    callIdNullish 5 { id := none, name := "ls", args := [] }
      = generatedCallId 5 { id := none, name := "ls", args := [] } ∧
    callIdNullish 5 { id := some "abc", name := "ls", args := [] } = "abc" ∧
    callIdOrElse 5 { id := some "xyz", name := "ls", args := [] } = "xyz" ∧
    callIdOrElse 5 { id := some "", name := "ls", args := [] }
      = generatedCallId 5 { id := some "", name := "ls", args := [] } := by
  refine ⟨?_, ?_, ?_, ?_⟩
  · exact ((call_id_construction 5 { id := none, name := "ls", args := [] }).1 rfl).1
  · exact (call_id_construction 5 { id := some "abc", name := "ls", args := [] }).2.1 "abc" rfl
  · exact (call_id_construction 5 { id := some "xyz", name := "ls", args := [] }).2.2.1 "xyz" rfl
      (by decide)
  · exact (call_id_construction 5 { id := some "", name := "ls", args := [] }).2.2.2 rfl

/-- Counterexample to claim C6 as stated: with a supplied empty-string
identifier the nullish-coalescing scripts use it unchanged while the
logical-or scripts generate a fresh one, so the construction is not
identical in every script that builds requests. -/
theorem call_id_construction_counterexample :
    callIdNullish 0 { id := some "", name := "ls", args := [] } = "" ∧
    callIdOrElse 0 { id := some "", name := "ls", args := [] } = "ls-0" ∧
    callIdNullish 0 { id := some "", name := "ls", args := [] }
      ≠ callIdOrElse 0 { id := some "", name := "ls", args := [] } := by
  exact ⟨rfl, by decide, by decide⟩

/-- Claim C7: the confirmation decision callback of a tool call is single
shot: an invocation on a call no longer awaiting approval is ignored and
changes nothing, and after any first invocation a second invocation with
any decision leaves the scheduler state and the call exactly as the first
left them, so a second invocation never re-triggers execution. -/
theorem confirm_callback_single_shot
    (reg : SchedToolRegistry) (st : SchedulerState) (c c2 : SchedCall)
    (d1 d2 d3 : ToolConfirmationOutcome)
    (hdecided : c2.status ≠ CallStatus.awaitingApproval) :
    onConfirm reg (onConfirm reg st c d1).1 (onConfirm reg st c d1).2 d2
      = onConfirm reg st c d1 ∧
    onConfirm reg st c2 d3 = (st, c2) :=
  ⟨onConfirm_idem reg st c d1 d2, onConfirm_decided reg st c2 d3 hdecided⟩

/-- Witness for confirm_callback_single_shot: a second decision on the
sample awaiting call changes nothing, and a decision on the sample
completed call is ignored. -/
theorem confirm_callback_single_shot_witness :
    sampleCompletedCall.status ≠ CallStatus.awaitingApproval ∧
    onConfirm sampleReg (SchedulerState.mk []) sampleCompletedCall
        ToolConfirmationOutcome.proceedOnce
      = (SchedulerState.mk [], sampleCompletedCall) ∧
    onConfirm sampleReg
        (onConfirm sampleReg (SchedulerState.mk []) sampleAwaitingCall
          ToolConfirmationOutcome.proceedOnce).1
        (onConfirm sampleReg (SchedulerState.mk []) sampleAwaitingCall
          ToolConfirmationOutcome.proceedOnce).2
        ToolConfirmationOutcome.cancel
      = onConfirm sampleReg (SchedulerState.mk []) sampleAwaitingCall
          ToolConfirmationOutcome.proceedOnce := by
  refine ⟨by decide, ?_, ?_⟩
  · exact (confirm_callback_single_shot sampleReg (SchedulerState.mk []) sampleAwaitingCall
      sampleCompletedCall ToolConfirmationOutcome.proceedOnce ToolConfirmationOutcome.cancel
      ToolConfirmationOutcome.proceedOnce (by decide)).2
  · exact (confirm_callback_single_shot sampleReg (SchedulerState.mk []) sampleAwaitingCall
      sampleCompletedCall ToolConfirmationOutcome.proceedOnce ToolConfirmationOutcome.cancel
      ToolConfirmationOutcome.proceedOnce (by decide)).1

/-- Claim C8: every script exits with process exit code 1 exactly when the
GEMINI_API_KEY environment variable is falsy (missing or empty) or the
body of main fails with an uncaught error, and with exit code 0 exactly
otherwise. -/
theorem script_exit_codes (apiKey : Option String) (bodyFails : Bool) :
    (mainExitCode apiKey bodyFails = 1 ↔ (envTruthy apiKey = false ∨ bodyFails = true)) ∧
    (mainExitCode apiKey bodyFails = 0 ↔ (envTruthy apiKey = true ∧ bodyFails = false)) := by
  cases h : envTruthy apiKey <;> cases bodyFails <;> simp [mainExitCode, h]

/-- Claim C9 (amended): whenever the step-3 loop does set a next round of
input, it is a list of non-null object parts, and any successfully
collected responseParts value is wrapped into an array when it is not one
with strings converted to text objects and null or undefined parts
dropped; that normalization, however, only runs when the unguarded
functionResponse.response.output access of src/03-tools.ts lines 92-93
does not throw, which for a truthy value requires a single
functionResponse object part; a truthy array-valued, bare-string-valued or
functionResponse-less responseParts throws a TypeError before the
normalization, and a falsy responseParts (absent, null, undefined or the
bare empty string) contributes no parts. -/
theorem response_parts_normalization
    (rp : Option RespParts) (rGood rBad : RespParts) (ps : List JsPart)
    (exec : ToolCallRequestInfo → Option RespParts) (now : Nat)
    (round : List StreamPart) (nextParts : List JsPart)
    (hok : collectResponseParts rp = Except.ok ps)
    (hgt : respTruthy rGood = true) (hgs : outputAccessThrows rGood = false)
    (hbt : respTruthy rBad = true) (hbs : outputAccessThrows rBad = true)
    (hstep : runChatStep exec now round = LoopOutcome.continueWith nextParts) :
    ps.all isObjPart = true ∧
    collectResponseParts (some rGood)
      = Except.ok ((respPartsList rGood).filterMap claimConvertPart) ∧
    collectResponseParts (some rBad) = Except.error () ∧
    collectResponseParts none = Except.ok [] ∧
    collectResponseParts (some (RespParts.single (JsPart.strPart ""))) = Except.ok [] ∧
    nextParts.all isObjPart = true := by
  refine ⟨collectResponseParts_ok_all_obj rp ps hok, ?_, ?_, rfl, rfl, ?_⟩
  · simp [collectResponseParts, hgt, hgs, pushFold_eq_filterMap]
  · simp [collectResponseParts, hbt, hbs]
  · cases h : (consumeStream round).functionCalls with
    | nil =>
      rw [runChatStep_finished exec now round h] at hstep
      cases hstep
    | cons fc fcs =>
      simp only [runChatStep, h] at hstep
      cases hr : chatToolResults exec now (fc :: fcs) with
      | error e =>
        rw [hr] at hstep
        cases hstep
      | ok parts =>
        rw [hr] at hstep
        injection hstep with h2
        rw [← h2]
        exact chatToolResults_all_obj exec now (fc :: fcs) parts hr

/-- Witness for response_parts_normalization at concrete inputs: a
surviving functionResponse part, a crashing array value, and a
continuation step produced by a safe executor. -/
theorem response_parts_normalization_witness :
    collectResponseParts (some (RespParts.single (JsPart.objPart
        (PartObj.funcResponse "c1" RespKind.success "out"))))
      = Except.ok [JsPart.objPart (PartObj.funcResponse "c1" RespKind.success "out")] ∧
    respTruthy (RespParts.single (JsPart.objPart
        (PartObj.funcResponse "c1" RespKind.success "out"))) = true ∧
    respTruthy (RespParts.array [JsPart.nullPart, JsPart.strPart "s"]) = true ∧
    runChatStep (fun _ => none) 0 chatCallRound = LoopOutcome.continueWith [] ∧
    collectResponseParts (some (RespParts.array [JsPart.nullPart, JsPart.strPart "s"]))
      = Except.error () ∧
    ([] : List JsPart).all isObjPart = true := by
  refine ⟨rfl, rfl, rfl, by decide, ?_, ?_⟩
  · exact (response_parts_normalization
      (some (RespParts.single (JsPart.objPart (PartObj.funcResponse "c1" RespKind.success "out"))))
      (RespParts.single (JsPart.objPart (PartObj.funcResponse "c1" RespKind.success "out")))
      (RespParts.array [JsPart.nullPart, JsPart.strPart "s"])
      [JsPart.objPart (PartObj.funcResponse "c1" RespKind.success "out")]
      (fun _ => none) 0 chatCallRound []
      rfl rfl rfl rfl rfl (by decide)).2.2.1
  · exact (response_parts_normalization
      (some (RespParts.single (JsPart.objPart (PartObj.funcResponse "c1" RespKind.success "out"))))
      (RespParts.single (JsPart.objPart (PartObj.funcResponse "c1" RespKind.success "out")))
      (RespParts.array [JsPart.nullPart, JsPart.strPart "s"])
      [JsPart.objPart (PartObj.funcResponse "c1" RespKind.success "out")]
      (fun _ => none) 0 chatCallRound []
      rfl rfl rfl rfl rfl (by decide)).2.2.2.2.2

/-- Counterexample to claim C9 as stated: an array-valued responseParts is
truthy, so the claimed normalization would convert its string part into a
text object, but the unguarded output access of src/03-tools.ts lines
92-93 throws a TypeError before the normalization runs; and a bare
empty-string responseParts is falsy and contributes nothing rather than
being wrapped and converted. -/
theorem response_parts_normalization_counterexample :
    collectResponseParts (some (RespParts.array [JsPart.nullPart, JsPart.strPart "s"]))
      = Except.error () ∧
    claimNormalizeResponseParts (some (RespParts.array [JsPart.nullPart, JsPart.strPart "s"]))
      = [JsPart.objPart (PartObj.textObj "s")] ∧
    (Except.error () : Except Unit (List JsPart))
      ≠ Except.ok [JsPart.objPart (PartObj.textObj "s")] ∧
    collectResponseParts (some (RespParts.single (JsPart.strPart ""))) = Except.ok [] ∧
    claimNormalizeResponseParts (some (RespParts.single (JsPart.strPart "")))
      = [JsPart.objPart (PartObj.textObj "")] ∧
    (Except.ok [] : Except Unit (List JsPart))
      ≠ Except.ok [JsPart.objPart (PartObj.textObj "")] := by
  exact ⟨rfl, rfl, by simp, rfl, rfl, by simp⟩

/-- Claim C10: CalculatorTool.execute is total and never propagates a
failure (its registry run is ok on every input); an expression containing
a character outside digits, whitespace, the decimal point, the four
arithmetic operators and parentheses is rejected before the dynamic
evaluator is consulted, yielding the error-describing result independently
of the evaluator; and shouldConfirmExecute is false, so a calculate
request scheduled against the calculator registry never traverses the
awaiting-approval status. -/
theorem calculator_tool_safety
    (f g : String → Except String String) (e : String)
    (args : List (String × String)) (st : SchedulerState)
    (approver : ToolCallRequestInfo → ToolConfirmationOutcome)
    (req : ToolCallRequestInfo)
    (hbad : e.data.all calculatorAllowedChar = false)
    (hname : req.name = "calculate") :
    (∃ parts, (calculatorToolSpec f).run args = Except.ok parts) ∧
    calculatorExecute f e = calculatorExecute g e ∧
    calculatorExecute f e = calcInvalidResult e ∧
    calculatorShouldConfirmExecute = false ∧
    CallStatus.awaitingApproval ∉
      ((scheduleCall [("calculate", calculatorToolSpec f)] approver st req).2).trace := by
  have hcl : cleanedExpression e ≠ e := cleanedExpression_ne e hbad
  have heval : ∀ h : String → Except String String,
      evaluateExpression h e = Except.error "Invalid characters in expression" := by
    intro h
    rw [evaluateExpression, if_neg hcl]
  refine ⟨⟨_, rfl⟩, ?_, ?_, rfl, ?_⟩
  · rw [calculatorExecute, calculatorExecute, heval f, heval g]
  · simp only [calculatorExecute, heval f, calcInvalidResult]
  · apply scheduleCall_no_confirm_trace _ st approver req (calculatorToolSpec f)
    · rw [hname]
      rfl
    · rfl

/-- Witness for calculator_tool_safety on the concrete expression 2+x,
which contains the disallowed character x. -/
theorem calculator_tool_safety_witness :
    ("2+x".data.all calculatorAllowedChar = false) ∧
    calculatorExecute (fun _ => Except.error "boom") "2+x"
      = calculatorExecute (fun _ => Except.ok "4") "2+x" ∧
    calculatorExecute (fun _ => Except.error "boom") "2+x" = calcInvalidResult "2+x" ∧
    CallStatus.awaitingApproval ∉
      ((scheduleCall [("calculate", calculatorToolSpec (fun _ => Except.error "boom"))]
        cancelApprover (SchedulerState.mk [])
        { callId := "c1", name := "calculate", args := [("expression", "2+x")] }).2).trace := by
  refine ⟨by decide, ?_, ?_, ?_⟩
  · exact (calculator_tool_safety (fun _ => Except.error "boom") (fun _ => Except.ok "4") "2+x"
      [] (SchedulerState.mk []) cancelApprover
      { callId := "c1", name := "calculate", args := [("expression", "2+x")] }
      (by decide) rfl).2.1
  · exact (calculator_tool_safety (fun _ => Except.error "boom") (fun _ => Except.ok "4") "2+x"
      [] (SchedulerState.mk []) cancelApprover
      { callId := "c1", name := "calculate", args := [("expression", "2+x")] }
      (by decide) rfl).2.2.1
  · exact (calculator_tool_safety (fun _ => Except.error "boom") (fun _ => Except.ok "4") "2+x"
      [] (SchedulerState.mk []) cancelApprover
      { callId := "c1", name := "calculate", args := [("expression", "2+x")] }
      (by decide) rfl).2.2.2.2
